import Mathlib

/-!
Verification of the external-process orchestration core of
velocloud-cloudinit-builder.

The Go source is shallowly embedded: pure string manipulation is translated
directly; every invocation of an external command (podman, qemu, the OS file
system) is modelled by an explicit "world" value supplying the outcome the
external system would produce (captured output, exit code, error message,
stat result).  Go `time.Duration` values are modelled as natural numbers of
seconds; Go `error` values are modelled as `Option String` carrying the
error message, since the source only ever branches on message contents.
Paths use `/` as separator.

The Go standard-library string and path functions the source calls
(`strings.Contains`, `strings.ToLower`, `strings.TrimSpace`,
`strings.ReplaceAll`, `filepath.Clean`, `filepath.Join`, `filepath.Base`)
are modelled by executable list-based functions below.
-/

namespace VCB

/-- Model of Go `strings.Contains`: `pat` occurs contiguously in `s`. -/
def strContains (s pat : String) : Bool :=
  (List.range (s.toList.length + 1)).any
    (fun i => List.isPrefixOf pat.toList (s.toList.drop i))

/-- Test whether `s` has at least one character satisfying `p`
(model of Go `strings.ContainsAny` specialised to a character test). -/
def strAny (s : String) (p : Char → Bool) : Bool := s.toList.any p

/-- Model of Go `strings.ToLower` (ASCII, which covers every pattern the
source matches against). -/
def lowerStr (s : String) : String := String.mk (s.toList.map Char.toLower)

/-- Whitespace characters recognised by the trimming model. -/
def isWS (c : Char) : Bool := c == ' ' || c == '\t' || c == '\n' || c == '\r'

/-- Model of Go `strings.TrimSpace`. -/
def trimStr (s : String) : String :=
  String.mk (((s.toList.dropWhile isWS).reverse.dropWhile isWS).reverse)

/-- Replace every occurrence of the non-empty pattern `p :: ps` by `rep`,
scanning left to right.  `fuel` bounds the recursion by the input length so
the definition is structural (and so computes inside the kernel). -/
def replaceAux (p : Char) (ps rep : List Char) : Nat → List Char → List Char
  | 0, _ => []
  | _, [] => []
  | fuel + 1, c :: rest =>
    if List.isPrefixOf (p :: ps) (c :: rest) then
      rep ++ replaceAux p ps rep fuel (rest.drop ps.length)
    else c :: replaceAux p ps rep fuel rest

/-- Model of Go `strings.ReplaceAll` for a non-empty pattern (the source
only replaces the pattern `"`). -/
def replaceStr (s pat rep : String) : String :=
  match pat.toList with
  | [] => s
  | p :: ps => String.mk (replaceAux p ps rep.toList s.toList.length s.toList)

/-- Split a character list at `/` separators. -/
def splitSlashAux : List Char → List (List Char)
  | [] => [[]]
  | c :: rest =>
    let r := splitSlashAux rest
    if c == '/' then [] :: r
    else
      match r with
      | h :: t => (c :: h) :: t
      | [] => [[c]]

/-- Split a path string at `/` separators. -/
def splitSlash (s : String) : List String :=
  (splitSlashAux s.toList).map String.mk

/-- Test whether `s` starts with `pre` (model of Go `strings.HasPrefix`). -/
def startsWithStr (s pre : String) : Bool := List.isPrefixOf pre.toList s.toList

/-- One step of Go `path.Clean`'s component elimination; `acc` holds the
already-processed components in reverse order. -/
def cleanStep (rooted : Bool) (acc : List String) (c : String) : List String :=
  if c = "" || c = "." then acc
  else if c = ".." then
    match acc with
    | [] => if rooted then [] else [".."]
    | h :: t => if h = ".." then c :: acc else t
  else c :: acc

/-- Model of Go `filepath.Clean` on slash-separated paths: drop empty and
`.` components, resolve `..` against preceding components (leading `..`
survives in relative paths, is dropped at the root of absolute paths), and
return `.` for an empty relative result. -/
def goClean (p : String) : String :=
  if p = "" then "."
  else
    let rooted := startsWithStr p "/"
    let comps := (splitSlash p).foldl (cleanStep rooted) []
    let body := String.intercalate "/" comps.reverse
    if rooted then "/" ++ body
    else if body = "" then "." else body

/-- Model of Go `filepath.Join` on two elements: empty elements are
dropped, the concatenation is cleaned. -/
def goJoin (a b : String) : String :=
  if a = "" then if b = "" then "" else goClean b
  else if b = "" then goClean a
  else goClean (a ++ "/" ++ b)

/-- Model of Go `filepath.Base` on slash-separated paths. -/
def baseName (p : String) : String :=
  if p = "" then "."
  else
    match ((splitSlash p).filter (fun c => c ≠ "")).getLast? with
    | some c => c
    | none => "/"

/-- Path `q` is inside directory `d` in the directory-tree sense: after
cleaning, `q` equals `d` or extends it at a separator boundary. -/
def underDir (d q : String) : Bool :=
  goClean q = goClean d || startsWithStr (goClean q) (goClean d ++ "/")

/-! ## Process Runner (internal/sysutil/sys.go) -/

/-- Model of `sysutil.RunOptions`.  Only `Timeout` influences the modelled
control flow; `Dir`, `Env` and the duplicate output sinks only affect the
external process and are part of the abstract execution behaviour. -/
structure RunOptions where
  timeout : Nat
  deriving Repr, DecidableEq

/-- Model of `sysutil.RunResult`. -/
structure RunResult where
  command : String
  stdout : String
  stderr : String
  exitCode : Int
  duration : Nat
  timedOut : Bool
  deriving Repr, DecidableEq

/-- Abstract behaviour of the external command: how long it would run,
what it writes to the captured buffers, its exit code, and whether the
process failed to even start (Go: a `cmd.Run` error that is not an
`exec.ExitError`). -/
structure ExecBehavior where
  duration : Nat
  stdout : String
  stderr : String
  exitCode : Int
  launchErr : Option String
  deriving Repr, DecidableEq

/-- The errors `RunCommand` can produce (built with `errors.New` /
`fmt.Errorf` in Go; durations render as numerals here). -/
inductive CmdErr where
  | emptyName
  | timeoutExpired (t : Nat) (cmdLine : String)
  | exitFailure (code : Int) (cmdLine : String)
  | startFailure (msg : String)
  deriving Repr, DecidableEq

/-- Rendering of a `CmdErr` as the Go error message. -/
def cmdErrMsg : CmdErr → String
  | .emptyName => "sysutil: command name is required"
  | .timeoutExpired t cmdLine =>
      "command timed out after " ++ toString t ++ ": " ++ cmdLine
  | .exitFailure code cmdLine =>
      "command failed with exit code " ++ toString code ++ ": " ++ cmdLine
  | .startFailure msg => "command failed: " ++ msg

/-- Recognizer that holds exactly for the `Timeout` error kind. -/
def CmdErr.isTimeoutErr : CmdErr → Bool
  | .timeoutExpired _ _ => true
  | _ => false

/-- Model of `shellQuote` (sys.go): wrap in double quotes, escaping internal
double quotes, when the argument contains a space, a tab or a double quote
(Go: `strings.ContainsAny(s, " \t\"")`); render the empty argument as an
explicit empty-quoted token. -/
def shellQuote (s : String) : String :=
  if s = "" then "\"\""
  else if strAny s (fun c => c == ' ' || c == '\t' || c == '\"') then
    "\"" ++ (replaceStr s "\"" "\\\"") ++ "\""
  else s

/-- Model of `commandString` (sys.go). -/
def commandString (name : String) (args : List String) : String :=
  String.intercalate " " (shellQuote name :: args.map shellQuote)

/-- Model of `sysutil.RunCommand`.  The background context of a zero
timeout never reports a deadline, so `ctx.Err() == DeadlineExceeded` is
modelled as `0 < timeout ∧ timeout ≤ duration`; on expiry the observed
duration is capped at the deadline.  Returns the `RunResult` (absent only
when the command name is empty) together with the error, exactly as the
Go function returns `(*RunResult, error)`. -/
def RunCommand (opts : RunOptions) (name : String) (args : List String)
    (beh : ExecBehavior) : Option RunResult × Option CmdErr :=
  if name = "" then (none, some .emptyName)
  else
    let cmdLine := commandString name args
    let deadlineHit := 0 < opts.timeout ∧ opts.timeout ≤ beh.duration
    let result : RunResult :=
      { command := cmdLine
        stdout := beh.stdout
        stderr := beh.stderr
        exitCode := if beh.launchErr.isSome then 0 else beh.exitCode
        duration := if deadlineHit then opts.timeout else beh.duration
        timedOut := false }
    if deadlineHit then
      (some { result with timedOut := true },
       some (.timeoutExpired opts.timeout cmdLine))
    else
      match beh.launchErr with
      | some m => (some result, some (.startFailure m))
      | none =>
          if beh.exitCode ≠ 0 then
            (some result, some (.exitFailure beh.exitCode cmdLine))
          else (some result, none)

/-! ## Machine Lifecycle Controller (internal/deps, podman machine part) -/

/-- Fixed machine name (deps). -/
def podmanMachineName : String := "cloudinit-builder"

/-- Value of `machineInitTimeout` in seconds (10 minutes). -/
def machineInitTimeout : Nat := 600

/-- Value of `machineStartTimeout` in seconds (3 minutes). -/
def machineStartTimeout : Nat := 180

/-- Model of `machineMissing` (deps): the error message is checked against
all three missing patterns; the captured stdout/stderr (when a result is
present) are checked against "does not exist" and "no such vm" only. -/
def machineMissing (err : Option String) (result : Option RunResult) : Bool :=
  match err with
  | none => false
  | some msg =>
    let m := lowerStr msg
    if strContains m "no such vm" || strContains m "not found" ||
        strContains m "does not exist" then true
    else
      match result with
      | none => false
      | some r =>
        let so := lowerStr r.stdout
        let se := lowerStr r.stderr
        strContains so "does not exist" || strContains se "does not exist" ||
          strContains so "no such vm" || strContains se "no such vm"

/-- Modelled from the spec: the recognized "missing" signature as the
specification words it — the error message, stdout, or stderr matching any
of the patterns "no such vm", "not found", or "does not exist" (used only
to compare the specified classifier with the implemented one). -/
def claimMissingSignature (errMsg stdout stderr : String) : Bool :=
  ["no such vm", "not found", "does not exist"].any (fun pat =>
    strContains (lowerStr errMsg) pat || strContains (lowerStr stdout) pat ||
      strContains (lowerStr stderr) pat)

/-- Outcome of one `podman system connection rm` invocation. -/
structure RmOutcome where
  res : Option RunResult
  err : Option String
  deriving Repr, DecidableEq

/-- The benign failure signatures swallowed by the connection-cleanup loop:
a missing-machine signature, "no such connection", or "not found". -/
def connRmBenign (e : String) (res : Option RunResult) : Bool :=
  machineMissing (some e) res ||
    strContains (lowerStr e) "no such connection" ||
    strContains (lowerStr e) "not found"

/-- The `for _, name := range names` loop of `cleanupMachineConnection`:
returns the first non-benign removal error (stopping there) and the list of
connection names whose removal was actually attempted, in order. -/
def cleanupLoop : List (String × RmOutcome) → Option String × List String
  | [] => (none, [])
  | (n, o) :: rest =>
    match o.err with
    | some e =>
        if connRmBenign e o.res then
          let r := cleanupLoop rest
          (r.1, n :: r.2)
        else (some e, [n])
    | none =>
        let r := cleanupLoop rest
        (r.1, n :: r.2)

/-- Model of `cleanupMachineConnection` (deps): removes the connection
entries for the machine name and its `-root` variant. -/
def cleanupMachineConnection (name : String) (o1 o2 : RmOutcome) :
    Option String × List String :=
  cleanupLoop [(name, o1), (name ++ "-root", o2)]

/-- The retry signature of `ensureMachineExists`: the init error mentions a
connection that already exists. -/
def initConnSignature (e : String) : Bool :=
  strContains (lowerStr e) "connection" && strContains (lowerStr e) "already exists"

/-- World for one `ensureMachineExists` run: the outcome of the inspect
command, of the two connection removals of the proactive cleanup, of the
first init, of the two removals of the post-failure cleanup, and of the
retried init. -/
structure EnsureExistsWorld where
  inspectRes : Option RunResult
  inspectErr : Option String
  preCleanup1 : RmOutcome
  preCleanup2 : RmOutcome
  init1Err : Option String
  midCleanup1 : RmOutcome
  midCleanup2 : RmOutcome
  init2Err : Option String
  deriving Repr, DecidableEq

/-- Observable outcome of `ensureMachineExists`: its error, the number of
`machine init` attempts, the number of `cleanupMachineConnection` calls,
and the connection names whose removal was attempted. -/
structure ExistsOut where
  err : Option String
  initAttempts : Nat
  cleanupCalls : Nat
  cleanupNames : List String
  deriving Repr, DecidableEq

/-- Model of `ensureMachineExists` (deps). -/
def ensureMachineExists (w : EnsureExistsWorld) : ExistsOut :=
  match w.inspectErr with
  | none => ⟨none, 0, 0, []⟩
  | some e =>
    if machineMissing (some e) w.inspectRes = false then
      ⟨some ("check podman machine: " ++ e), 0, 0, []⟩
    else
      let c1 := cleanupMachineConnection podmanMachineName w.preCleanup1 w.preCleanup2
      match w.init1Err with
      | none => ⟨none, 1, 1, c1.2⟩
      | some e1 =>
        if initConnSignature e1 then
          let c2 := cleanupMachineConnection podmanMachineName w.midCleanup1 w.midCleanup2
          match w.init2Err with
          | none => ⟨none, 2, 2, c1.2 ++ c2.2⟩
          | some e2 =>
              ⟨some ("podman machine init after cleanup: " ++ e2), 2, 2, c1.2 ++ c2.2⟩
        else ⟨some ("podman machine init: " ++ e1), 1, 1, c1.2⟩

/-- Model of `ensureMachineRunning` (deps): inspect the machine state, and
start the machine unless the trimmed state string is exactly "running". -/
def ensureMachineRunning (stateRes : RunResult) (stateErr startErr : Option String) :
    Option String :=
  match stateErr with
  | some e => some ("podman machine inspect: " ++ e)
  | none =>
    if trimStr stateRes.stdout = "running" then none
    else
      match startErr with
      | none => none
      | some e => some ("podman machine start: " ++ e)

/-- Model of `ensureDefaultConnection` (deps): a failure whose message
contains "already default" is tolerated. -/
def ensureDefaultConnection (defErr : Option String) : Option String :=
  match defErr with
  | none => none
  | some e =>
      if strContains e "already default" then none
      else some ("set podman connection default: " ++ e)

/-- Model of `podmanEnv` (deps): the fixed environment bindings rooted
under `baseDir/runtime/podman` (directory creation is world I/O and its
failure is the `envErr` field of `MachineWorld`). -/
def podmanEnvList (baseDir : String) : List String :=
  ["XDG_CONFIG_HOME=" ++ goJoin baseDir "runtime/podman/config",
   "XDG_RUNTIME_DIR=" ++ goJoin baseDir "runtime/podman/run",
   "PODMAN_CONFIG=" ++ goJoin baseDir "runtime/podman/config/containers.conf",
   "PODMAN_TMPDIR=" ++ goJoin baseDir "runtime/podman/tmp",
   "TMPDIR=" ++ goJoin baseDir "runtime/podman/tmp",
   "HOME=" ++ goJoin baseDir "runtime/podman/home"]

/-- World for one `EnsurePodmanMachine` run. -/
structure MachineWorld where
  envErr : Option String
  ex : EnsureExistsWorld
  stateRes : RunResult
  stateErr : Option String
  startErr : Option String
  defaultErr : Option String
  deriving Repr, DecidableEq

/-- Model of `EnsurePodmanMachine` (deps): ensure the machine exists, is
running and is the default connection; on success return the machine name
and the environment variable set. -/
def EnsurePodmanMachine (baseDir : String) (w : MachineWorld) :
    Except String (String × List String) :=
  match w.envErr with
  | some e => .error e
  | none =>
    match (ensureMachineExists w.ex).err with
    | some e => .error e
    | none =>
      match ensureMachineRunning w.stateRes w.stateErr w.startErr with
      | some e => .error e
      | none =>
        match ensureDefaultConnection w.defaultErr with
        | some e => .error e
        | none => .ok (podmanMachineName, podmanEnvList baseDir)

/-- Model of `StopPodmanMachine` (deps), abstracting the
`machine stop` command's outcome: a missing-machine signature or an
"already stopped" message is success; any other failure is wrapped and
returned. -/
def StopPodmanMachine (machineName : String)
    (stopOut : Option RunResult × Option String) : Option String :=
  match stopOut.2 with
  | none => none
  | some e =>
      if machineMissing (some e) stopOut.1 ||
          strContains (lowerStr e) "already stopped" then none
      else some ("podman machine stop: " ++ e)

/-! ## Build Orchestrator (builder package) -/

/-- Fixed container image pulled by the build (builder). -/
def imageName : String := "docker.io/library/debian:bookworm"

/-- Value of `podmanPullTimeout` in seconds (10 minutes). -/
def podmanPullTimeout : Nat := 600

/-- Value of `podmanRunTimeout` in seconds (15 minutes). -/
def podmanRunTimeout : Nat := 900

/-- Model of `runPodman` (builder): run podman with `--connection` and the
given arguments, returning the error message when the command fails. -/
def runPodman (podmanPath machineName : String) (args : List String)
    (timeout : Nat) (beh : ExecBehavior) : Option String :=
  (RunCommand ⟨timeout⟩ podmanPath (["--connection", machineName] ++ args) beh).2
    |>.map cmdErrMsg

/-- The containerized build script of `runPodmanRun` (builder). -/
def buildScript : String :=
  "set -euo pipefail && apt-get update -qq && apt-get install -y genisoimage" ++
  " && genisoimage -output /work/images/cloud-init.iso -volid cidata -joliet" ++
  " -rock -graft-points user-data=/work/templates/user-data.txt" ++
  " meta-data=/work/templates/meta-data.txt"

/-- The `podman run` argument list of `runPodmanRun` (builder). -/
def podmanRunArgs (baseDir : String) : List String :=
  ["run", "--rm", "-v", goClean baseDir ++ ":/work", "-w", "/work",
   imageName, "bash", "-c", buildScript]

/-- Model of `runPodmanRun` (builder): remove a stale output ISO (a
missing file is not an error; `isoRemoveErr` is any other removal error),
ensure the images directory, then run the containerized build. -/
def runPodmanRun (baseDir podmanPath machineName : String)
    (isoRemoveErr isoDirErr : Option String) (beh : ExecBehavior) : Option String :=
  match isoRemoveErr with
  | some e => some e
  | none =>
    match isoDirErr with
    | some e => some e
    | none =>
        (RunCommand ⟨podmanRunTimeout⟩ podmanPath
            (["--connection", machineName] ++ podmanRunArgs baseDir) beh).2
          |>.map cmdErrMsg

/-- World for one `Build` run. -/
structure BuildWorld where
  loggerErr : Option String
  layoutErr : Option String
  templErr : Option String
  podmanErr : Option String
  machine : MachineWorld
  pullBeh : ExecBehavior
  isoRemoveErr : Option String
  isoDirErr : Option String
  runBeh : ExecBehavior
  stopOut : Option RunResult × Option String
  deriving Repr, DecidableEq

/-- Observable outcome of `Build`: the returned error, how many times the
deferred machine stop ran, and whether the stop failure warning was
printed. -/
structure BuildOut where
  err : Option String
  stopCalls : Nat
  stopWarned : Bool
  deriving Repr, DecidableEq

/-- Model of `Build` (builder).  The deferred closure stops the machine on
every exit path reached after its registration, guarded by
`podmanPath ≠ "" ∧ machineName ≠ "" ∧ podmanEnv ≠ []`; exits before those
variables are assigned leave them at their zero values, so the guard skips
the stop there.  The deferred function only prints a warning on stop
failure and never assigns the named return `err`. -/
def Build (baseDir : String) (w : BuildWorld) : BuildOut :=
  match w.loggerErr with
  | some e => ⟨some e, 0, false⟩
  | none =>
  match w.layoutErr with
  | some e => ⟨some ("ensure base layout: " ++ e), 0, false⟩
  | none =>
  match w.templErr with
  | some e => ⟨some ("ensure templates: " ++ e), 0, false⟩
  | none =>
  match w.podmanErr with
  | some e => ⟨some ("ensure podman: " ++ e), 0, false⟩
  | none =>
    let podmanPath := goJoin baseDir "tools/podman/podman.exe"
    match EnsurePodmanMachine baseDir w.machine with
    | .error e => ⟨some ("ensure podman machine: " ++ e), 0, false⟩
    | .ok (machineName, podmanEnv) =>
      let stopCalls : Nat :=
        if podmanPath = "" ∨ machineName = "" ∨ podmanEnv = [] then 0 else 1
      let stopWarned :=
        stopCalls ≠ 0 && (StopPodmanMachine machineName w.stopOut).isSome
      let bodyErr : Option String :=
        match runPodman podmanPath machineName ["pull", imageName]
            podmanPullTimeout w.pullBeh with
        | some e => some ("podman pull: " ++ e)
        | none =>
          match runPodmanRun baseDir podmanPath machineName
              w.isoRemoveErr w.isoDirErr w.runBeh with
          | some e => some ("podman run: " ++ e)
          | none => none
      ⟨bodyErr, stopCalls, stopWarned⟩

/-! ## VM Smoke-Test Runner (internal/vmtest/vmtest.go) -/

/-- Value of `vmRunTimeout` in seconds (30 minutes). -/
def vmRunTimeout : Nat := 1800

/-- Outcome of an `os.Stat` call: the path is missing, stat itself failed,
or the path exists with the given directory/regular-file mode bits. -/
inductive FileStat where
  | missing
  | statFailed (msg : String)
  | present (isDir : Bool) (isRegularFile : Bool)
  deriving Repr, DecidableEq

/-- Model of `ensureFileExists` (vmtest): missing and stat failures are
reported; an existing path is rejected only when it is a directory. -/
def ensureFileExists (st : FileStat) (path description : String) : Option String :=
  match st with
  | .missing => some (description ++ " not found at " ++ path)
  | .statFailed m => some ("stat " ++ description ++ ": " ++ m)
  | .present d _ =>
      if d then some (description ++ " points to a directory: " ++ path)
      else none

/-- Model of `looksLikeQEMU` (vmtest). -/
def looksLikeQEMU (path : String) : Bool :=
  let b := lowerStr (baseName path)
  startsWithStr b "qemu-system" || strContains b "qemu"

/-- Model of `defaultAccel` (vmtest): the trimmed environment override, or
"tcg" when unset or blank. -/
def defaultAccel (accelEnv : String) : String :=
  if trimStr accelEnv ≠ "" then trimStr accelEnv else "tcg"

/-- Model of `defaultQEMUArgs` (vmtest). -/
def defaultQEMUArgs (diskPath isoPath accel : String) : List String :=
  ["-name", "cloudinit-builder-test,process=cloudinit-builder-test",
   "-m", "4096", "-smp", "2",
   "-drive", "if=virtio,format=qcow2,file=" ++ diskPath,
   "-cdrom", isoPath, "-boot", "d", "-accel", accel,
   "-netdev", "user,id=wan,ipv6=off",
   "-device", "virtio-net-pci,netdev=wan,mac=52:54:00:00:00:01",
   "-vga", "std", "-display", "sdl", "-serial", "stdio"]

deriving instance DecidableEq for Except

/-- World for one `vmtest.Run` invocation. -/
structure VmWorld where
  loggerErr : Option String
  qemuRes : Except String String
  absRes : Except String String
  vmStat : FileStat
  isoStat : FileStat
  qcowStat : FileStat
  dirErr : Option String
  timestamp : String
  copyErr : Option String
  accelEnv : String
  launch : ExecBehavior
  removeErr : Option String
  deriving Repr, DecidableEq

/-- The launch argument list `vmtest.Run` passes to the VM executable:
the default QEMU template in bundled mode or for a QEMU-looking name, a
minimal `--disk`/`--cdrom` convention otherwise, with caller-supplied
passthrough arguments appended verbatim. -/
def vmLaunchArgs (baseDir : String) (passthroughArgs : List String)
    (w : VmWorld) (absVM : String) (bundled : Bool) : List String :=
  (if bundled || looksLikeQEMU absVM then
    defaultQEMUArgs
      (goJoin (goJoin baseDir "runtime/vm") ("velocloud-" ++ w.timestamp ++ ".qcow2"))
      (goJoin baseDir "images/cloud-init.iso") (defaultAccel w.accelEnv)
  else
    ["--disk", goJoin (goJoin baseDir "runtime/vm") ("velocloud-" ++ w.timestamp ++ ".qcow2"),
     "--cdrom", goJoin baseDir "images/cloud-init.iso"]) ++ passthroughArgs

/-- Observable outcome of `vmtest.Run`: the returned error plus which steps
were reached, how many times the deferred clone deletion ran, and whether
its failure warning was printed. -/
structure VmOut where
  err : Option String
  isoChecked : Bool
  qcowChecked : Bool
  cloneAttempted : Bool
  launchAttempted : Bool
  deleteCalls : Nat
  deleteWarned : Bool
  deriving Repr, DecidableEq

/-- The VM-executable resolution step of `vmtest.Run`: bundled QEMU when
`vmPath` is empty, otherwise `filepath.Abs` followed by the
existence/non-directory check.  Returns the absolute executable path and
the bundled-mode flag. -/
def resolveVM (vmPath : String) (w : VmWorld) : Except String (String × Bool) :=
  if vmPath = "" then
    match w.qemuRes with
    | .error e => .error ("ensure qemu: " ++ e)
    | .ok p => .ok (p, true)
  else
    match w.absRes with
    | .error e => .error ("resolve vm path: " ++ e)
    | .ok p =>
      match ensureFileExists w.vmStat p "VM executable" with
      | some e => .error e
      | none => .ok (p, false)

/-- Model of `vmtest.Run`.  After the clone copy succeeds the deferred
deletion runs on every exit path; a deletion failure only prints a warning
and never becomes the returned error. -/
def vmRun (baseDir vmPath : String) (passthroughArgs : List String)
    (w : VmWorld) : VmOut :=
  match w.loggerErr with
  | some e => ⟨some e, false, false, false, false, 0, false⟩
  | none =>
    match resolveVM vmPath w with
    | .error e => ⟨some e, false, false, false, false, 0, false⟩
    | .ok (absVM, bundled) =>
      let isoPath := goJoin baseDir "images/cloud-init.iso"
      match ensureFileExists w.isoStat isoPath "cloud-init ISO" with
      | some e => ⟨some e, true, false, false, false, 0, false⟩
      | none =>
        let qcowPath := goJoin baseDir "images/velocloud.qcow2"
        match ensureFileExists w.qcowStat qcowPath "velocloud qcow2 image" with
        | some e => ⟨some e, true, true, false, false, 0, false⟩
        | none =>
          match w.dirErr with
          | some e =>
              ⟨some ("prepare vm runtime dir: " ++ e), true, true, false, false, 0, false⟩
          | none =>
            match w.copyErr with
            | some e =>
                ⟨some ("clone qcow2: " ++ e), true, true, true, false, 0, false⟩
            | none =>
              let args := vmLaunchArgs baseDir passthroughArgs w absVM bundled
              let launchErr : Option String :=
                match (RunCommand ⟨vmRunTimeout⟩ absVM args w.launch).2 with
                | some ce => some ("vm execution failed: " ++ cmdErrMsg ce)
                | none => none
              ⟨launchErr, true, true, true, true, 1, w.removeErr.isSome⟩

/-! ## ZIP extraction (internal/deps/deps.go, `extractZip`) -/

/-- One archive entry: its stored name and whether it is a directory. -/
structure ZipEntry where
  name : String
  isDir : Bool
  deriving Repr, DecidableEq

/-- The per-entry loop of `extractZip`: compute the target path by joining
the entry name onto the destination, reject it when the cleaned target does
not have the cleaned destination as a string prefix, create directories,
and write files.  Returns the written file paths in order (the I/O of the
writes themselves is external).  `written` accumulates in reverse. -/
def extractZipGo (dest : String) (written : List String) :
    List ZipEntry → Except String (List String)
  | [] => .ok written.reverse
  | e :: rest =>
    let targetPath := goJoin dest e.name
    if startsWithStr (goClean targetPath) (goClean dest) = false then
      .error ("unsafe path in archive: " ++ e.name)
    else if e.isDir then extractZipGo dest written rest
    else extractZipGo dest (targetPath :: written) rest

/-- Model of `extractZip` (deps): the list of file paths written, or the
first unsafe-path error. -/
def extractZip (zipEntries : List ZipEntry) (dest : String) :
    Except String (List String) :=
  extractZipGo dest [] zipEntries

/-! ## Theorems -/

/-- C1: with `timeout = 0` no deadline is enforced, so `RunCommand` never
returns a `Timeout` error and never marks the result timed out; when the
command's running time exceeds a positive `timeout`, the returned
`RunResult` has `timedOut = true`, the error is the `Timeout` error, and
the result with the captured output is returned alongside the error. -/
theorem runCommand_timeout_contract (opts : RunOptions) (name : String)
    (args : List String) (beh : ExecBehavior) :
    (opts.timeout = 0 →
      (∀ e, (RunCommand opts name args beh).2 = some e → e.isTimeoutErr = false) ∧
      (∀ r, (RunCommand opts name args beh).1 = some r → r.timedOut = false)) ∧
    (name ≠ "" → 0 < opts.timeout → opts.timeout < beh.duration →
      RunCommand opts name args beh =
        (some { command := commandString name args, stdout := beh.stdout,
                stderr := beh.stderr,
                exitCode := if beh.launchErr.isSome then 0 else beh.exitCode,
                duration := opts.timeout, timedOut := true },
         some (.timeoutExpired opts.timeout (commandString name args)))) := by
  constructor
  · intro h0
    unfold RunCommand
    by_cases hn : name = ""
    · simp [hn]
      rfl
    · simp only [hn, if_false, h0]
      simp only [Nat.lt_irrefl, false_and, if_false]
      constructor
      · intro e he
        revert he
        split
        · rename_i m hm
          intro he
          injection he with he
          subst he
          rfl
        · split
          · intro he
            injection he with he
            subst he
            rfl
          · intro he
            exact absurd he (by simp)
      · intro r hr
        revert hr
        split
        · intro hr
          injection hr with hr
          subst hr
          rfl
        · split
          · intro hr
            injection hr with hr
            subst hr
            rfl
          · intro hr
            injection hr with hr
            subst hr
            rfl
  · intro hn hpos hlt
    unfold RunCommand
    simp only [hn, if_false]
    have hd : 0 < opts.timeout ∧ opts.timeout ≤ beh.duration :=
      ⟨hpos, Nat.le_of_lt hlt⟩
    simp [hd]

/-- Closed witness for `runCommand_timeout_contract`: a 5-second deadline
against a 10-second command times out with the partial output preserved,
and a zero deadline never flags a timeout. -/
theorem runCommand_timeout_contract_witness :
    RunCommand ⟨5⟩ "sleep" ["10"] ⟨10, "partial", "", 0, none⟩ =
      (some ⟨"sleep 10", "partial", "", 0, 5, true⟩,
       some (.timeoutExpired 5 "sleep 10")) ∧
    (∀ e, (RunCommand ⟨0⟩ "sleep" ["10"] ⟨999, "o", "", 0, none⟩).2 = some e →
      e.isTimeoutErr = false) :=
  ⟨by
    have h := (runCommand_timeout_contract ⟨5⟩ "sleep" ["10"]
      ⟨10, "partial", "", 0, none⟩).2 (by decide) (by decide) (by decide)
    simpa using h,
   (runCommand_timeout_contract ⟨0⟩ "sleep" ["10"] ⟨999, "o", "", 0, none⟩).1 rfl |>.1⟩

/-- C3: a stop-command failure carrying a missing-machine signature or an
"already stopped" signature makes `StopPodmanMachine` return success; any
other stop failure is returned as an error (and a stop command that
succeeds returns success). -/
theorem stopMachine_idempotent (mn e : String) (res : Option RunResult) :
    ((machineMissing (some e) res = true ∨
        strContains (lowerStr e) "already stopped" = true) →
      StopPodmanMachine mn (res, some e) = none) ∧
    (machineMissing (some e) res = false →
      strContains (lowerStr e) "already stopped" = false →
      StopPodmanMachine mn (res, some e) =
        some ("podman machine stop: " ++ e)) ∧
    StopPodmanMachine mn (res, none) = none := by
  refine ⟨?_, ?_, rfl⟩
  · intro h
    unfold StopPodmanMachine
    rcases h with h | h <;> simp [h]
  · intro h1 h2
    unfold StopPodmanMachine
    simp [h1, h2]

/-- Closed witness for `stopMachine_idempotent`: an "already stopped"
failure is success, a plain exit-code failure is an error. -/
theorem stopMachine_idempotent_witness :
    StopPodmanMachine "cloudinit-builder"
      (none, some "command failed with exit code 125: stop, Machine Already Stopped") = none ∧
    StopPodmanMachine "cloudinit-builder"
      (none, some "command failed with exit code 1: x") =
      some "podman machine stop: command failed with exit code 1: x" :=
  ⟨(stopMachine_idempotent "cloudinit-builder"
      "command failed with exit code 125: stop, Machine Already Stopped" none).1
      (Or.inr (by decide)),
   (stopMachine_idempotent "cloudinit-builder"
      "command failed with exit code 1: x" none).2.1 (by decide) (by decide)⟩

/-- C8 counterexample: the argument "a\nb" contains a whitespace character
(a newline) but `shellQuote` returns it unquoted. -/
theorem shellQuote_whitespace_cex :
    ("a\nb").toList.any Char.isWhitespace = true ∧
    shellQuote "a\nb" = "a\nb" ∧
    commandString "cmd" ["a\nb"] = "cmd a\nb" := by
  refine ⟨by decide, by decide, by decide⟩

/-- C8 (amended): in the normalized command string every argument (and the
command name) is rendered by `shellQuote`, which wraps an argument in
double quotes with internal double quotes escaped exactly when it contains
a space, a tab or a double-quote character, and renders the empty argument
as the explicit empty-quoted token. -/
theorem shellQuote_spec (name s : String) (args : List String) :
    commandString name args =
      String.intercalate " " ((name :: args).map shellQuote) ∧
    shellQuote "" = "\"\"" ∧
    (strAny s (fun c => c == ' ' || c == '\t' || c == '\"') = true →
      shellQuote s = "\"" ++ replaceStr s "\"" "\\\"" ++ "\"") ∧
    (s ≠ "" → strAny s (fun c => c == ' ' || c == '\t' || c == '\"') = false →
      shellQuote s = s) := by
  refine ⟨rfl, rfl, ?_, ?_⟩
  · intro h
    unfold shellQuote
    by_cases he : s = ""
    · subst he
      exact absurd h (by decide)
    · simp [he, h]
  · intro he h
    unfold shellQuote
    simp [he, h]

/-- Closed witness for `shellQuote_spec`: an argument with a space and a
quote is wrapped and escaped; a plain argument is left verbatim. -/
theorem shellQuote_spec_witness :
    shellQuote "a \"b\"" = "\"a \\\"b\\\"\"" ∧ shellQuote "plain" = "plain" := by
  constructor
  · have h := (shellQuote_spec "x" "a \"b\"" []).2.2.1 (by decide)
    rw [h]
    decide
  · exact (shellQuote_spec "x" "plain" []).2.2.2 (by decide) (by decide)

/-- C10 counterexample: the archive entry `../qemu-evil/pwn.exe`, extracted
into destination `tools/qemu`, passes the containment check (its cleaned
target path has the destination as a plain string prefix) and is written to
`tools/qemu-evil/pwn.exe`, which lies outside the destination directory. -/
theorem extractZip_containment_cex :
    extractZip [⟨"../qemu-evil/pwn.exe", false⟩] "tools/qemu" =
      .ok ["tools/qemu-evil/pwn.exe"] ∧
    underDir "tools/qemu" "tools/qemu-evil/pwn.exe" = false := by
  exact ⟨by decide, by decide⟩

/-- Helper: a successful `extractZipGo` run only returns paths from the
accumulator or paths whose cleaned form has the cleaned destination as a
string prefix. -/
theorem extractZipGo_ok_prefix (dest : String) :
    ∀ (entries : List ZipEntry) (acc written : List String),
      extractZipGo dest acc entries = .ok written →
      ∀ p ∈ written,
        p ∈ acc ∨ startsWithStr (goClean p) (goClean dest) = true := by
  intro entries
  induction entries with
  | nil =>
      intro acc written h p hp
      unfold extractZipGo at h
      injection h with h
      subst h
      exact Or.inl (List.mem_reverse.mp hp)
  | cons e rest ih =>
      intro acc written h p hp
      unfold extractZipGo at h
      by_cases hc : startsWithStr (goClean (goJoin dest e.name)) (goClean dest) = false
      · rw [if_pos hc] at h
        exact absurd h (by simp)
      · rw [if_neg hc] at h
        by_cases hd : e.isDir
        · rw [if_pos hd] at h
          exact ih acc written h p hp
        · rw [if_neg hd] at h
          rcases ih _ _ h p hp with hmem | hgood
          · rcases List.mem_cons.mp hmem with hpe | hacc
            · subst hpe
              right
              cases hb : startsWithStr (goClean (goJoin dest e.name)) (goClean dest)
              · exact absurd hb hc
              · rfl
            · exact Or.inl hacc
          · exact Or.inr hgood

/-- Helper: as soon as some entry fails the containment check, the whole
extraction fails (with an unsafe-path error for the first such entry). -/
theorem extractZipGo_unsafe_error (dest : String) :
    ∀ (entries : List ZipEntry) (acc : List String),
      (∃ e ∈ entries,
        startsWithStr (goClean (goJoin dest e.name)) (goClean dest) = false) →
      ∃ bad, extractZipGo dest acc entries =
        .error ("unsafe path in archive: " ++ bad) := by
  intro entries
  induction entries with
  | nil =>
      intro acc h
      rcases h with ⟨e, he, _⟩
      exact absurd he (List.not_mem_nil e)
  | cons e rest ih =>
      intro acc h
      unfold extractZipGo
      by_cases hc : startsWithStr (goClean (goJoin dest e.name)) (goClean dest) = false
      · exact ⟨e.name, by rw [if_pos hc]⟩
      · rw [if_neg hc]
        have hrest : ∃ e2 ∈ rest,
            startsWithStr (goClean (goJoin dest e2.name)) (goClean dest) = false := by
          rcases h with ⟨e2, he2, hbad⟩
          rcases List.mem_cons.mp he2 with rfl | hmem
          · exact absurd hbad hc
          · exact ⟨e2, hmem, hbad⟩
        by_cases hd : e.isDir
        · rw [if_pos hd]
          exact ih acc hrest
        · rw [if_neg hd]
          exact ih _ hrest

/-- C10 (amended): if any entry's name joined to the destination yields a
cleaned path that does not extend the cleaned destination as a string
prefix, extraction fails with an "unsafe path" error; consequently every
file path a successful extraction writes has the cleaned destination as a
string prefix.  (The string-prefix check does not guarantee directory-tree
containment; see `extractZip_containment_cex`.) -/
theorem extractZip_prefix_guarantee (dest : String) (zipEntries : List ZipEntry) :
    ((∃ e ∈ zipEntries,
        startsWithStr (goClean (goJoin dest e.name)) (goClean dest) = false) →
      ∃ bad, extractZip zipEntries dest =
        .error ("unsafe path in archive: " ++ bad)) ∧
    (∀ written, extractZip zipEntries dest = .ok written →
      ∀ p ∈ written, startsWithStr (goClean p) (goClean dest) = true) := by
  constructor
  · intro h
    exact extractZipGo_unsafe_error dest zipEntries [] h
  · intro written h p hp
    rcases extractZipGo_ok_prefix dest zipEntries [] written h p hp with hmem | hgood
    · exact absurd hmem (List.not_mem_nil p)
    · exact hgood

/-- Closed witness for `extractZip_prefix_guarantee`: a traversal entry is
rejected with the unsafe-path error, and a normal entry is written with the
destination prefix. -/
theorem extractZip_prefix_guarantee_witness :
    (∃ bad, extractZip [⟨"../../evil.exe", false⟩] "tools/qemu" =
      .error ("unsafe path in archive: " ++ bad)) ∧
    startsWithStr (goClean "d/sub/a.txt") (goClean "d") = true :=
  ⟨(extractZip_prefix_guarantee "tools/qemu" [⟨"../../evil.exe", false⟩]).1
      ⟨⟨"../../evil.exe", false⟩, by decide, by decide⟩,
   (extractZip_prefix_guarantee "d" [⟨"sub/a.txt", false⟩]).2
      ["d/sub/a.txt"] (by decide) "d/sub/a.txt" (by decide)⟩

/-- C5 counterexample: an inspection failure whose stdout matches
"not found" is a recognized missing signature per the claim, yet
`machineMissing` does not recognize it (stdout/stderr are only matched
against "does not exist" and "no such vm"), so `ensureMachineExists`
returns a hard error instead of treating the machine as absent. -/
theorem machineMissing_claim_cex :
    claimMissingSignature "inspect failed" "machine cloudinit-builder not found" "" = true ∧
    machineMissing (some "inspect failed")
      (some ⟨"c", "machine cloudinit-builder not found", "", 125, 1, false⟩) = false ∧
    ensureMachineExists
      ⟨some ⟨"c", "machine cloudinit-builder not found", "", 125, 1, false⟩,
       some "inspect failed", ⟨none, none⟩, ⟨none, none⟩, none,
       ⟨none, none⟩, ⟨none, none⟩, none⟩ =
      ⟨some "check podman machine: inspect failed", 0, 0, []⟩ := by
  refine ⟨by decide, by decide, by decide⟩

/-- C5 (amended): a failed inspection is treated as "machine absent" if and
only if the error message matches "no such vm", "not found" or "does not
exist", or the captured stdout/stderr matches "does not exist" or "no such
vm"; with such a signature `ensureMachineExists` proceeds to creation, and
with any other failure it returns the hard wrapped error without any init
attempt. -/
theorem machineMissing_spec (e : String) (res : Option RunResult)
    (w : EnsureExistsWorld) :
    (machineMissing (some e) res =
      (strContains (lowerStr e) "no such vm" ||
       strContains (lowerStr e) "not found" ||
       strContains (lowerStr e) "does not exist" ||
       match res with
       | none => false
       | some r =>
           strContains (lowerStr r.stdout) "does not exist" ||
           strContains (lowerStr r.stderr) "does not exist" ||
           strContains (lowerStr r.stdout) "no such vm" ||
           strContains (lowerStr r.stderr) "no such vm")) ∧
    (w.inspectErr = some e → w.inspectRes = res →
      (machineMissing (some e) res = false →
        ensureMachineExists w = ⟨some ("check podman machine: " ++ e), 0, 0, []⟩) ∧
      (machineMissing (some e) res = true →
        1 ≤ (ensureMachineExists w).initAttempts)) := by
  constructor
  · unfold machineMissing
    by_cases h : (strContains (lowerStr e) "no such vm" ||
        strContains (lowerStr e) "not found" ||
        strContains (lowerStr e) "does not exist") = true
    · simp [h]
    · rw [Bool.not_eq_true] at h
      simp [h]
  · intro hie hir
    constructor
    · intro hmf
      unfold ensureMachineExists
      simp only [hie, hir, hmf]
      simp
    · intro hmt
      unfold ensureMachineExists
      simp only [hie, hir, hmt]
      simp only [Bool.true_eq_false, if_false]
      cases w.init1Err with
      | none => simp
      | some e1 =>
          by_cases hs : initConnSignature e1 = true
          · simp only [hs, if_true]
            cases w.init2Err <;> simp
          · rw [Bool.not_eq_true] at hs
            simp [hs]

/-- Closed witness for `machineMissing_spec`: a "no such vm" stderr makes
the inspection failure count as absent and creation is attempted. -/
theorem machineMissing_spec_witness :
    machineMissing (some "exit status 125")
      (some ⟨"c", "", "Error: no such VM cloudinit-builder", 125, 1, false⟩) = true ∧
    1 ≤ (ensureMachineExists
      ⟨some ⟨"c", "", "Error: no such VM cloudinit-builder", 125, 1, false⟩,
       some "exit status 125", ⟨none, none⟩, ⟨none, none⟩, none,
       ⟨none, none⟩, ⟨none, none⟩, none⟩).initAttempts :=
  ⟨by decide,
   ((machineMissing_spec "exit status 125"
      (some ⟨"c", "", "Error: no such VM cloudinit-builder", 125, 1, false⟩)
      ⟨some ⟨"c", "", "Error: no such VM cloudinit-builder", 125, 1, false⟩,
       some "exit status 125", ⟨none, none⟩, ⟨none, none⟩, none,
       ⟨none, none⟩, ⟨none, none⟩, none⟩).2 rfl rfl).2 (by decide)⟩

/-- Helper: when the first connection removal succeeds, the cleanup loop
attempts both the machine name and its `-root` variant. -/
theorem cleanupMachineConnection_both (name : String) (o1 o2 : RmOutcome)
    (h : o1.err = none) :
    (cleanupMachineConnection name o1 o2).2 = [name, name ++ "-root"] := by
  unfold cleanupMachineConnection
  cases h2 : o2.err with
  | none => simp [cleanupLoop, h, h2]
  | some e2 =>
      by_cases hb : connRmBenign e2 o2.res = true <;> simp [cleanupLoop, h, h2, hb]

/-- C4: when the machine is absent and `machine init` fails with a
"connection already exists" signature, `ensureMachineExists` repeats the
stale-connection cleanup (targeting the machine name and its `-root`
variant) and retries the init exactly once, returning the retry's error as
fatal when the retry also fails; an init failure with any other signature
is returned immediately with a single init attempt and no second
cleanup. -/
theorem ensureMachineExists_retry (w : EnsureExistsWorld) (e e1 : String)
    (hi : w.inspectErr = some e)
    (hm : machineMissing (some e) w.inspectRes = true)
    (h1 : w.init1Err = some e1) :
    (initConnSignature e1 = true →
      (ensureMachineExists w).initAttempts = 2 ∧
      (ensureMachineExists w).cleanupCalls = 2 ∧
      (ensureMachineExists w).cleanupNames =
        (cleanupMachineConnection podmanMachineName w.preCleanup1 w.preCleanup2).2 ++
        (cleanupMachineConnection podmanMachineName w.midCleanup1 w.midCleanup2).2 ∧
      (w.midCleanup1.err = none →
        (cleanupMachineConnection podmanMachineName w.midCleanup1 w.midCleanup2).2 =
          [podmanMachineName, podmanMachineName ++ "-root"]) ∧
      (w.init2Err = none → (ensureMachineExists w).err = none) ∧
      (∀ e2, w.init2Err = some e2 →
        (ensureMachineExists w).err =
          some ("podman machine init after cleanup: " ++ e2))) ∧
    (initConnSignature e1 = false →
      (ensureMachineExists w).initAttempts = 1 ∧
      (ensureMachineExists w).cleanupCalls = 1 ∧
      (ensureMachineExists w).err = some ("podman machine init: " ++ e1)) := by
  constructor
  · intro hs
    unfold ensureMachineExists
    simp only [hi, hm, h1, hs, Bool.true_eq_false, if_false, if_true]
    refine ⟨?_, ?_, ?_, ?_, ?_, ?_⟩
    · cases w.init2Err <;> simp
    · cases w.init2Err <;> simp
    · cases w.init2Err <;> simp
    · intro hmc
      exact cleanupMachineConnection_both podmanMachineName w.midCleanup1 w.midCleanup2 hmc
    · intro h2
      rw [h2]
    · intro e2 h2
      rw [h2]
  · intro hs
    unfold ensureMachineExists
    simp only [hi, hm, h1, hs, Bool.true_eq_false, if_false, Bool.false_eq_true]
    simp

/-- Closed witness for `ensureMachineExists_retry`: a missing machine, a
"connection already exists" init failure, and a failing retry produce two
init attempts, two cleanup rounds over both connection names, and the
retry's error. -/
theorem ensureMachineExists_retry_witness :
    ensureMachineExists
      ⟨none, some "Error: no such VM", ⟨none, none⟩, ⟨none, none⟩,
       some "Error: connection \"cloudinit-builder\" already exists",
       ⟨none, none⟩, ⟨none, none⟩, some "boom"⟩ =
      ⟨some "podman machine init after cleanup: boom", 2, 2,
       ["cloudinit-builder", "cloudinit-builder-root",
        "cloudinit-builder", "cloudinit-builder-root"]⟩ ∧
    (ensureMachineExists
      ⟨none, some "Error: no such VM", ⟨none, none⟩, ⟨none, none⟩,
       some "Error: connection \"cloudinit-builder\" already exists",
       ⟨none, none⟩, ⟨none, none⟩, some "boom"⟩).initAttempts = 2 := by
  have h := (ensureMachineExists_retry
      ⟨none, some "Error: no such VM", ⟨none, none⟩, ⟨none, none⟩,
       some "Error: connection \"cloudinit-builder\" already exists",
       ⟨none, none⟩, ⟨none, none⟩, some "boom"⟩
      "Error: no such VM" "Error: connection \"cloudinit-builder\" already exists"
      rfl (by decide) rfl).1 (by decide)
  exact ⟨by decide, h.1⟩

/-- Helper: `goClean` never returns the empty string. -/
theorem goClean_ne_empty (p : String) : goClean p ≠ "" := by
  unfold goClean
  by_cases h0 : p = ""
  · simp [h0]
  · simp only [h0, if_false]
    by_cases hr : startsWithStr p "/" = true
    · simp only [hr, if_true]
      intro h
      have := congrArg String.length h
      rw [String.length_append] at this
      simp at this
      exact absurd this.1 (by decide)
    · rw [Bool.not_eq_true] at hr
      simp only [hr, Bool.false_eq_true, if_false]
      split
      · decide
      · assumption

/-- Helper: a successful `EnsurePodmanMachine` always returns the fixed
machine name and the non-empty environment set. -/
theorem ensurePodmanMachine_ok (baseDir : String) (w : MachineWorld)
    (p : String × List String) (h : EnsurePodmanMachine baseDir w = .ok p) :
    p = (podmanMachineName, podmanEnvList baseDir) := by
  unfold EnsurePodmanMachine at h
  cases h1 : w.envErr with
  | some e => rw [h1] at h; exact absurd h (by simp)
  | none =>
    rw [h1] at h
    cases h2 : (ensureMachineExists w.ex).err with
    | some e => rw [h2] at h; exact absurd h (by simp)
    | none =>
      rw [h2] at h
      cases h3 : ensureMachineRunning w.stateRes w.stateErr w.startErr with
      | some e => rw [h3] at h; exact absurd h (by simp)
      | none =>
        rw [h3] at h
        cases h4 : ensureDefaultConnection w.defaultErr with
        | some e => rw [h4] at h; exact absurd h (by simp)
        | none =>
          rw [h4] at h
          injection h with h
          exact h.symm

/-- C2: once the podman binary and the machine have been successfully
ensured, the deferred machine stop runs exactly once on every exit path of
`Build` (pull failure, run failure, or success); a stop failure only
raises the warning flag, and the error `Build` returns is exactly the
wrapped error of the failing step (or none on success), independent of the
stop outcome. -/
theorem build_stop_exactly_once (baseDir : String) (w : BuildWorld)
    (p : String × List String)
    (h1 : w.loggerErr = none) (h2 : w.layoutErr = none) (h3 : w.templErr = none)
    (h4 : w.podmanErr = none)
    (h5 : EnsurePodmanMachine baseDir w.machine = .ok p) :
    (Build baseDir w).stopCalls = 1 ∧
    (Build baseDir w).stopWarned =
      (StopPodmanMachine podmanMachineName w.stopOut).isSome ∧
    (Build baseDir w).err =
      (match runPodman (goJoin baseDir "tools/podman/podman.exe")
          podmanMachineName ["pull", imageName] podmanPullTimeout w.pullBeh with
       | some e => some ("podman pull: " ++ e)
       | none =>
         match runPodmanRun baseDir (goJoin baseDir "tools/podman/podman.exe")
             podmanMachineName w.isoRemoveErr w.isoDirErr w.runBeh with
         | some e => some ("podman run: " ++ e)
         | none => none) ∧
    (∀ e, runPodman (goJoin baseDir "tools/podman/podman.exe")
        podmanMachineName ["pull", imageName] podmanPullTimeout w.pullBeh = some e →
      (Build baseDir w).err = some ("podman pull: " ++ e)) := by
  have hp := ensurePodmanMachine_ok baseDir w.machine p h5
  subst hp
  have hguard : ¬(goJoin baseDir "tools/podman/podman.exe" = "" ∨
      podmanMachineName = "" ∨ podmanEnvList baseDir = []) := by
    intro hc
    rcases hc with hc | hc | hc
    · revert hc
      unfold goJoin
      by_cases hb : baseDir = ""
      · simp [hb]
        exact goClean_ne_empty "tools/podman/podman.exe"
      · simp [hb]
        exact goClean_ne_empty (baseDir ++ "/" ++ "tools/podman/podman.exe")
    · exact absurd hc (by decide)
    · exact absurd hc (by simp [podmanEnvList])
  unfold Build
  simp only [h1, h2, h3, h4, h5]
  simp only [hguard, if_false]
  refine ⟨trivial, by simp, trivial, ?_⟩
  intro e he
  simp only [he]

/-- C6: once the disk clone has been created, the deferred clone deletion
runs exactly once on every exit path of `vmtest.Run`; a deletion failure
only raises the warning flag and is never the returned error, and a launch
that exits non-zero yields the wrapped process-failed error. -/
theorem vmtest_clone_deleted (baseDir vmPath : String) (pt : List String)
    (w : VmWorld) (pr : String × Bool)
    (hl : w.loggerErr = none)
    (hres : resolveVM vmPath w = .ok pr)
    (hiso : ensureFileExists w.isoStat (goJoin baseDir "images/cloud-init.iso")
      "cloud-init ISO" = none)
    (hqcow : ensureFileExists w.qcowStat (goJoin baseDir "images/velocloud.qcow2")
      "velocloud qcow2 image" = none)
    (hdir : w.dirErr = none) (hcopy : w.copyErr = none) :
    (vmRun baseDir vmPath pt w).deleteCalls = 1 ∧
    (vmRun baseDir vmPath pt w).deleteWarned = w.removeErr.isSome ∧
    (vmRun baseDir vmPath pt w).err =
      (match (RunCommand ⟨vmRunTimeout⟩ pr.1
          (vmLaunchArgs baseDir pt w pr.1 pr.2) w.launch).2 with
       | some ce => some ("vm execution failed: " ++ cmdErrMsg ce)
       | none => none) ∧
    (pr.1 ≠ "" → w.launch.launchErr = none →
      w.launch.duration < vmRunTimeout → w.launch.exitCode ≠ 0 →
      (vmRun baseDir vmPath pt w).err =
        some ("vm execution failed: " ++
          cmdErrMsg (.exitFailure w.launch.exitCode
            (commandString pr.1 (vmLaunchArgs baseDir pt w pr.1 pr.2))))) := by
  unfold vmRun
  simp only [hl, hres, hiso, hqcow, hdir, hcopy]
  refine ⟨trivial, trivial, trivial, ?_⟩
  intro hn hle hd hc
  unfold RunCommand
  have hdl : ¬(0 < vmRunTimeout ∧ vmRunTimeout ≤ w.launch.duration) := by
    intro hx
    exact absurd hx.2 (Nat.not_le_of_lt hd)
  simp only [hn, if_false, hdl, hle, hc]
  simp [hn, hdl, hle, hc]

/-- Closed witness for `vmtest_clone_deleted`: a custom VM executable that
exits with code 2 while the clone deletion fails — the clone deletion still
runs once, the warning is raised, and the error is the process failure. -/
theorem vmtest_clone_deleted_witness :
    (vmRun "base" "myvm" []
      ⟨none, .error "unused", .ok "vmbin", .present false true,
       .present false true, .present false true, none, "ts", none,
       "", ⟨1, "", "", 2, none⟩, some "delete failed"⟩).deleteCalls = 1 ∧
    (vmRun "base" "myvm" []
      ⟨none, .error "unused", .ok "vmbin", .present false true,
       .present false true, .present false true, none, "ts", none,
       "", ⟨1, "", "", 2, none⟩, some "delete failed"⟩).deleteWarned = true ∧
    (vmRun "base" "myvm" []
      ⟨none, .error "unused", .ok "vmbin", .present false true,
       .present false true, .present false true, none, "ts", none,
       "", ⟨1, "", "", 2, none⟩, some "delete failed"⟩).err =
      some ("vm execution failed: " ++
        cmdErrMsg (.exitFailure 2 (commandString "vmbin"
          (vmLaunchArgs "base" []
            ⟨none, .error "unused", .ok "vmbin", .present false true,
             .present false true, .present false true, none, "ts", none,
             "", ⟨1, "", "", 2, none⟩, some "delete failed"⟩ "vmbin" false)))) := by
  have h := vmtest_clone_deleted "base" "myvm" []
      ⟨none, .error "unused", .ok "vmbin", .present false true,
       .present false true, .present false true, none, "ts", none,
       "", ⟨1, "", "", 2, none⟩, some "delete failed"⟩
      ("vmbin", false) rfl (by decide) (by decide) (by decide) rfl rfl
  exact ⟨h.1, by rw [h.2.1]; decide,
    h.2.2.2 (by decide) rfl (by decide) (by decide)⟩

/-- C7: when the base qcow2 disk image is missing (and the run has reached
that check), `vmtest.Run` fails with a not-found error naming
"velocloud qcow2 image", before the clone is created, before any VM
process is launched, and with no clone deletion. -/
theorem vmtest_qcow_missing (baseDir vmPath : String) (pt : List String)
    (w : VmWorld) (pr : String × Bool)
    (hl : w.loggerErr = none)
    (hres : resolveVM vmPath w = .ok pr)
    (hiso : ensureFileExists w.isoStat (goJoin baseDir "images/cloud-init.iso")
      "cloud-init ISO" = none)
    (hq : w.qcowStat = .missing) :
    vmRun baseDir vmPath pt w =
      ⟨some ("velocloud qcow2 image" ++ " not found at " ++
        goJoin baseDir "images/velocloud.qcow2"),
       true, true, false, false, 0, false⟩ := by
  unfold vmRun
  simp only [hl, hres, hiso, hq]
  simp only [ensureFileExists]

/-- Closed witness for `vmtest_qcow_missing`. -/
theorem vmtest_qcow_missing_witness :
    vmRun "base" "" []
      ⟨none, .ok "q/qemu-system-x86_64.exe", .error "unused", .missing,
       .present false true, .missing, none, "ts", none, "",
       ⟨1, "", "", 0, none⟩, none⟩ =
      ⟨some ("velocloud qcow2 image" ++ " not found at " ++
        goJoin "base" "images/velocloud.qcow2"),
       true, true, false, false, 0, false⟩ :=
  vmtest_qcow_missing "base" "" []
    ⟨none, .ok "q/qemu-system-x86_64.exe", .error "unused", .missing,
     .present false true, .missing, none, "ts", none, "",
     ⟨1, "", "", 0, none⟩, none⟩
    ("q/qemu-system-x86_64.exe", true) rfl (by decide) (by decide) rfl

/-- C9 counterexample: a caller-supplied VM path that resolves to an
existing path which is not a regular file (not a directory either, e.g. a
named pipe) passes the verification — the run proceeds to clone and launch
and succeeds — instead of failing with a not-found/invalid-input error. -/
theorem vmtest_nonregular_cex :
    vmRun "base" "myvm" []
      ⟨none, .error "unused", .ok "abs/myvm", .present false false,
       .present false true, .present false true, none, "20250101-000000", none,
       "", ⟨1, "", "", 0, none⟩, none⟩ =
      ⟨none, true, true, true, true, 1, false⟩ := by decide

/-- C9 (amended): for a non-empty caller-supplied VM path, the path is
resolved to an absolute path and verified to exist and not be a directory
before any further step; a resolution failure, a missing path, or a
directory aborts the run before the artifact checks, the clone, and the
launch. -/
theorem vmtest_vm_verification (baseDir vmPath : String) (pt : List String)
    (w : VmWorld) (hv : vmPath ≠ "") (hl : w.loggerErr = none) :
    (∀ e, w.absRes = .error e →
      vmRun baseDir vmPath pt w =
        ⟨some ("resolve vm path: " ++ e), false, false, false, false, 0, false⟩) ∧
    (∀ p, w.absRes = .ok p → w.vmStat = .missing →
      vmRun baseDir vmPath pt w =
        ⟨some ("VM executable" ++ " not found at " ++ p),
         false, false, false, false, 0, false⟩) ∧
    (∀ p r, w.absRes = .ok p → w.vmStat = .present true r →
      vmRun baseDir vmPath pt w =
        ⟨some ("VM executable" ++ " points to a directory: " ++ p),
         false, false, false, false, 0, false⟩) := by
  refine ⟨?_, ?_, ?_⟩
  · intro e he
    unfold vmRun resolveVM
    simp only [hl, hv, he, if_false]
  · intro p hp hst
    unfold vmRun resolveVM
    simp only [hl, hv, hp, hst, ensureFileExists, if_false]
  · intro p r hp hst
    unfold vmRun resolveVM
    simp only [hl, hv, hp, hst, ensureFileExists, if_false, if_true]

/-- Closed witness for `vmtest_vm_verification`: a missing executable path
is rejected before anything else runs. -/
theorem vmtest_vm_verification_witness :
    vmRun "base" "gone" []
      ⟨none, .error "unused", .ok "abs/gone", .missing,
       .present false true, .present false true, none, "ts", none, "",
       ⟨1, "", "", 0, none⟩, none⟩ =
      ⟨some ("VM executable" ++ " not found at " ++ "abs/gone"),
       false, false, false, false, 0, false⟩ :=
  (vmtest_vm_verification "base" "gone" []
    ⟨none, .error "unused", .ok "abs/gone", .missing,
     .present false true, .present false true, none, "ts", none, "",
     ⟨1, "", "", 0, none⟩, none⟩
    (by decide) rfl).2.1 "abs/gone" rfl rfl

/-- Closed witness for `build_stop_exactly_once`: with the machine ensured
and the pull failing on exit code 125 while the machine stop also fails,
the stop still runs once and the returned error is the wrapped pull
error. -/
theorem build_stop_exactly_once_witness :
    (Build "base"
      ⟨none, none, none, none,
       ⟨none, ⟨none, none, ⟨none, none⟩, ⟨none, none⟩, none, ⟨none, none⟩, ⟨none, none⟩, none⟩,
        ⟨"c", "running", "", 0, 1, false⟩, none, none, none⟩,
       ⟨1, "", "", 125, none⟩, none, none, ⟨1, "", "", 0, none⟩,
       (none, some "stop failed")⟩).stopCalls = 1 ∧
    (Build "base"
      ⟨none, none, none, none,
       ⟨none, ⟨none, none, ⟨none, none⟩, ⟨none, none⟩, none, ⟨none, none⟩, ⟨none, none⟩, none⟩,
        ⟨"c", "running", "", 0, 1, false⟩, none, none, none⟩,
       ⟨1, "", "", 125, none⟩, none, none, ⟨1, "", "", 0, none⟩,
       (none, some "stop failed")⟩).err =
      some ("podman pull: " ++
        "command failed with exit code 125: base/tools/podman/podman.exe --connection cloudinit-builder pull docker.io/library/debian:bookworm") := by
  have h := build_stop_exactly_once "base"
      ⟨none, none, none, none,
       ⟨none, ⟨none, none, ⟨none, none⟩, ⟨none, none⟩, none, ⟨none, none⟩, ⟨none, none⟩, none⟩,
        ⟨"c", "running", "", 0, 1, false⟩, none, none, none⟩,
       ⟨1, "", "", 125, none⟩, none, none, ⟨1, "", "", 0, none⟩,
       (none, some "stop failed")⟩
      (podmanMachineName, podmanEnvList "base") rfl rfl rfl rfl (by decide)
  exact ⟨h.1, h.2.2.2
    "command failed with exit code 125: base/tools/podman/podman.exe --connection cloudinit-builder pull docker.io/library/debian:bookworm"
    (by decide)⟩

end VCB
